import Mathlib

/-!
Verification of the core algorithms of the `noisyterminal` repository
(`test4.py`, `test4_optimized.py`, `test4_optimized_v2.py`): the noise
cache with batch eviction, the noise-to-color mapping, the frame
renderer, the mouse escape-sequence decoder, and the per-frame state
update of the main loop.

Python reals are modelled as `ℚ` (exact rational arithmetic; the source
uses binary floats, but no claim under study depends on float rounding),
Python ints as `ℤ`/`ℕ`, Python strings as `String`/`List Char`, dicts
with insertion order as association lists, and exceptions as
`Option`/`Except` results.
-/

namespace NoisyTerminal

/-- Python `int(x)` applied to a real: truncation toward zero
(`int(2.7) = 2`, `int(-2.7) = -2`). Used by `int(noiseval * mx + b)`
in the optimized renderers and by the `"%d" % val` formatting of
`test4.py`. -/
def pyTrunc (q : ℚ) : ℤ :=
  q.num.tdiv q.den

/-- `mxplusb(exp1, act1, exp2, act2)` from all three files:
`m = (exp2 - exp1) / (act2 - act1); b = exp1 - m * act1; return [m, b]`.
Python raises `ZeroDivisionError` when `act2 - act1 == 0`; that failure
is modelled as `none`. -/
def mxplusb (exp1 act1 exp2 act2 : ℚ) : Option (ℚ × ℚ) :=
  if act2 - act1 = 0 then none
  else
    let m := (exp2 - exp1) / (act2 - act1)
    some (m, exp1 - m * act1)

/-- `test4.py` lines 214-216: `val = noiseval * mx + b` followed by
`if (val > maxval): val = maxval` with `maxval = 255`; the (still
fractional) result is later truncated by `"%d" % val`.  Note: only the
upper end is clamped. -/
def mapToIntensity4 (noiseval mx b : ℚ) : ℤ :=
  let val := noiseval * mx + b
  pyTrunc (if 255 < val then 255 else val)

/-- `test4_optimized.py` lines 115-116:
`val = int(noiseval * mx + b); val = min(max(val, 0), 255)`. -/
def mapToIntensityOpt (noiseval mx b : ℚ) : ℤ :=
  min (max (pyTrunc (noiseval * mx + b)) 0) 255

/-- `test4_optimized_v2.py` lines 121-127:
`val = int(noiseval * mx + b)` then `if val < 0: val = 0
elif val > 255: val = 255`. -/
def mapToIntensityV2 (noiseval mx b : ℚ) : ℤ :=
  let val := pyTrunc (noiseval * mx + b)
  if val < 0 then 0 else if 255 < val then 255 else val

/-- `test4.py` lines 173-174 (and identically `test4_optimized.py`
lines 232-233): `[Xmx, Xb] = mxplusb(-1, 0, 1, width);
xvelocity = mousex * Xmx + Xb`.  The same formula with `height` in
place of `width` gives `yvelocity`. -/
def velocity4 (extent mouse : ℚ) : Option ℚ :=
  (mxplusb (-1) 0 1 extent).map fun mb => mouse * mb.1 + mb.2

/-- `test4_optimized_v2.py` lines 243-248: `xcentre = width/2;
xvelocity = (mousex - xcentre) * 0.001` (resp. `height`, `mousey`). -/
def velocityV2 (extent mouse : ℚ) : ℚ :=
  (mouse - extent / 2) * (1 / 1000)

/-- The clamp of `test4_optimized.py` keeps every intensity in
`[0, 255]`. -/
theorem mapToIntensityOpt_mem (noiseval mx b : ℚ) :
    0 ≤ mapToIntensityOpt noiseval mx b ∧ mapToIntensityOpt noiseval mx b ≤ 255 := by
  unfold mapToIntensityOpt
  constructor
  · exact le_min (le_max_right _ _) (by norm_num)
  · exact min_le_right _ _

/-- The clamp of `test4_optimized_v2.py` keeps every intensity in
`[0, 255]`. -/
theorem mapToIntensityV2_mem (noiseval mx b : ℚ) :
    0 ≤ mapToIntensityV2 noiseval mx b ∧ mapToIntensityV2 noiseval mx b ≤ 255 := by
  unfold mapToIntensityV2
  set val := pyTrunc (noiseval * mx + b) with hval
  by_cases h0 : val < 0
  · simp [h0]
  · by_cases h255 : 255 < val
    · simp [h0, h255]
    · simp only [h0, h255, if_false]
      omega

/-- C1.  The claim states that `mapToIntensity` clamps both below 0 and
above 255 in every variant.  The optimized variants do
(`mapToIntensityOpt`, `mapToIntensityV2` always land in `[0, 255]`),
but `test4.py` clamps only the upper end: at
`noiseValue = -2, slope = 127.5, intercept = 127.5` it produces the
out-of-range intensity `-127`.  The spec itself (§9) flags the
single-sided clamp of this variant as a latent defect, so the code, not
the claim, is wrong. -/
theorem clamp_bounds_and_test4_counterexample :
    (∀ noiseval mx b : ℚ,
      0 ≤ mapToIntensityOpt noiseval mx b ∧ mapToIntensityOpt noiseval mx b ≤ 255) ∧
    (∀ noiseval mx b : ℚ,
      0 ≤ mapToIntensityV2 noiseval mx b ∧ mapToIntensityV2 noiseval mx b ≤ 255) ∧
    mapToIntensity4 (-2) (255 / 2) (255 / 2) = -127 ∧
    mapToIntensity4 (-2) (255 / 2) (255 / 2) < 0 := by
  refine ⟨mapToIntensityOpt_mem, mapToIntensityV2_mem, ?_, ?_⟩ <;>
    with_unfolding_all decide

/-- C7.  With the per-frame affine calibration
`mxplusb(-1, 0, 1, width)` of `test4.py`/`test4_optimized.py`, and with
the simplified formula of `test4_optimized_v2.py`, a mouse at the exact
terminal center `(width/2, height/2)` yields zero x- and y-velocity,
for every positive width and height. -/
theorem velocity_zero_at_center (width height : ℚ)
    (hw : 0 < width) (hh : 0 < height) :
    velocity4 width (width / 2) = some 0 ∧
    velocity4 height (height / 2) = some 0 ∧
    velocityV2 width (width / 2) = 0 ∧
    velocityV2 height (height / 2) = 0 := by
  have hcalc : ∀ e : ℚ, 0 < e → velocity4 e (e / 2) = some 0 := by
    intro e he
    have hne : e - 0 ≠ 0 := by simpa using he.ne'
    unfold velocity4 mxplusb
    rw [if_neg hne]
    simp only [Option.map_some]
    refine congrArg some ?_
    field_simp
    ring
  refine ⟨hcalc width hw, hcalc height hh, ?_, ?_⟩ <;>
    · unfold velocityV2; ring

/-- Witness for C7 at the concrete terminal size 80 × 23. -/
theorem velocity_zero_at_center_witness :
    velocity4 80 (80 / 2) = some 0 ∧
    velocity4 23 (23 / 2) = some 0 ∧
    velocityV2 80 (80 / 2) = 0 ∧
    velocityV2 23 (23 / 2) = 0 :=
  velocity_zero_at_center 80 23 (by norm_num) (by norm_num)

/-! ## Noise cache (`NoiseRenderer.get_noise_cached`, `OptimizedNoiseRenderer.get_noise_optimized`) -/

/-- Python `round(q, prec)`: rounding to `prec` decimal digits.  (CPython
rounds ties to even on binary floats; `Mathlib.round` rounds ties up.
No claim under study depends on a tie.) -/
def pyRound (prec : ℕ) (q : ℚ) : ℚ :=
  (round (q * (10 : ℚ) ^ prec) : ℚ) / (10 : ℚ) ^ prec

/-- Cache keys: coordinate triples quantized to a fixed decimal
precision. -/
abbrev CacheKey : Type := ℚ × ℚ × ℚ

/-- The `noise_cache` dict, as an association list in insertion order
(oldest first), matching Python dict iteration order: deletion keeps the
order of the remaining entries, insertion of a new key appends. -/
abbrev NoiseCache : Type := List (CacheKey × ℚ)

/-- Python `key in dict` / `dict[key]`. -/
def cacheFind? (k : CacheKey) : NoiseCache → Option ℚ
  | [] => none
  | (k', v) :: rest => if k' = k then some v else cacheFind? k rest

/-- `key = (round(x, prec), round(y, prec), round(z, prec))`
(`prec = 2` in `test4_optimized.py` line 78, `prec = 1` in
`test4_optimized_v2.py` line 86). -/
def quantKey (prec : ℕ) (x y z : ℚ) : CacheKey :=
  (pyRound prec x, pyRound prec y, pyRound prec z)

/-- The cached-lookup body shared by `get_noise_cached`
(`test4_optimized.py` lines 76-94) and the `enable_cache` branch of
`get_noise_optimized` (`test4_optimized_v2.py` lines 84-104):
on hit return the stored value; on a miss compute `noise x y z` (the
unquantized coordinates), evict the first `evictN` insertion-ordered
entries if `len(cache) >= maxSize`, then store under the key.  The
third component records whether the noise source (`pnoise3`) was
invoked. -/
def cachedLookup (noise : ℚ → ℚ → ℚ → ℚ) (prec maxSize evictN : ℕ)
    (c : NoiseCache) (x y z : ℚ) : ℚ × NoiseCache × Bool :=
  match cacheFind? (quantKey prec x y z) c with
  | some v => (v, c, false)
  | none =>
      (noise x y z,
       (if maxSize ≤ c.length then c.drop evictN else c)
         ++ [(quantKey prec x y z, noise x y z)],
       true)

/-- Unfolding a cached lookup on a hit. -/
theorem cachedLookup_hit {noise : ℚ → ℚ → ℚ → ℚ} {prec maxSize evictN : ℕ}
    {c : NoiseCache} {x y z : ℚ} {v : ℚ}
    (h : cacheFind? (quantKey prec x y z) c = some v) :
    cachedLookup noise prec maxSize evictN c x y z = (v, c, false) := by
  unfold cachedLookup
  rw [h]

/-- Unfolding a cached lookup on a miss. -/
theorem cachedLookup_miss {noise : ℚ → ℚ → ℚ → ℚ} {prec maxSize evictN : ℕ}
    {c : NoiseCache} {x y z : ℚ}
    (h : cacheFind? (quantKey prec x y z) c = none) :
    cachedLookup noise prec maxSize evictN c x y z
      = (noise x y z,
         (if maxSize ≤ c.length then c.drop evictN else c)
           ++ [(quantKey prec x y z, noise x y z)],
         true) := by
  unfold cachedLookup
  rw [h]

/-- `NoiseRenderer.get_noise_cached` of `test4_optimized.py`:
precision 2, `cache_max_size = 10000`, eviction batch
`cache_max_size // 5`. -/
def get_noise_cached (noise : ℚ → ℚ → ℚ → ℚ) (c : NoiseCache)
    (x y z : ℚ) : ℚ × NoiseCache :=
  let r := cachedLookup noise 2 10000 (10000 / 5) c x y z
  (r.1, r.2.1)

/-- Cache state of `OptimizedNoiseRenderer` in `test4_optimized_v2.py`:
the dict plus the hit/miss counters. -/
structure V2Cache where
  noise_cache : NoiseCache
  cache_hits : ℕ
  cache_misses : ℕ
deriving DecidableEq

/-- `OptimizedNoiseRenderer.get_noise_optimized` of
`test4_optimized_v2.py` lines 79-104: when `enable_cache` is false,
call `pnoise3` directly; otherwise precision 1,
`cache_max_size = 2000`, eviction batch `cache_max_size // 2`, and the
hit/miss counters are bumped. -/
def get_noise_optimized (noise : ℚ → ℚ → ℚ → ℚ) (enable_cache : Bool)
    (st : V2Cache) (x y z : ℚ) : ℚ × V2Cache :=
  if enable_cache then
    let r := cachedLookup noise 1 2000 (2000 / 2) st.noise_cache x y z
    if r.2.2 then
      (r.1, { noise_cache := r.2.1, cache_hits := st.cache_hits,
              cache_misses := st.cache_misses + 1 })
    else
      (r.1, { st with cache_hits := st.cache_hits + 1 })
  else
    (noise x y z, st)

/-- A key found before an append is still found, with the same value. -/
theorem cacheFind?_append_of_some {k : CacheKey} {c : NoiseCache} {v : ℚ}
    (h : cacheFind? k c = some v) (d : NoiseCache) :
    cacheFind? k (c ++ d) = some v := by
  induction c with
  | nil => simp [cacheFind?] at h
  | cons kv rest ih =>
    obtain ⟨k', v'⟩ := kv
    by_cases hk : k' = k
    · rw [cacheFind?] at h
      rw [if_pos hk] at h
      rw [List.cons_append, cacheFind?, if_pos hk]
      exact h
    · rw [cacheFind?] at h
      rw [if_neg hk] at h
      rw [List.cons_append, cacheFind?, if_neg hk]
      exact ih h


/-- A key absent from the left part of an append is looked up in the
right part. -/
theorem cacheFind?_append_of_none {k : CacheKey} {c : NoiseCache}
    (h : cacheFind? k c = none) (d : NoiseCache) :
    cacheFind? k (c ++ d) = cacheFind? k d := by
  induction c with
  | nil => simp
  | cons kv rest ih =>
    obtain ⟨k', v'⟩ := kv
    by_cases hk : k' = k
    · rw [cacheFind?, if_pos hk] at h
      exact absurd h (by simp)
    · rw [cacheFind?, if_neg hk] at h
      rw [List.cons_append, cacheFind?, if_neg hk]
      exact ih h

/-- A key absent from a cache is absent from any suffix of it. -/
theorem cacheFind?_drop_of_none {k : CacheKey} {c : NoiseCache}
    (h : cacheFind? k c = none) (n : ℕ) :
    cacheFind? k (c.drop n) = none := by
  induction c generalizing n with
  | nil => simpa using h
  | cons kv rest ih =>
    cases n with
    | zero => exact h
    | succ m =>
      obtain ⟨k', v'⟩ := kv
      by_cases hk : k' = k
      · rw [cacheFind?, if_pos hk] at h
        exact absurd h (by simp)
      · rw [cacheFind?, if_neg hk] at h
        exact ih h m

/-- One cached lookup keeps the cache size within the bound, provided
the eviction batch is nonempty and no larger than the bound. -/
theorem cachedLookup_length_le (noise : ℚ → ℚ → ℚ → ℚ)
    (prec maxSize evictN : ℕ) (c : NoiseCache) (x y z : ℚ)
    (h1 : 1 ≤ evictN) (h2 : evictN ≤ maxSize) (hc : c.length ≤ maxSize) :
    ((cachedLookup noise prec maxSize evictN c x y z).2.1).length ≤ maxSize := by
  cases hfind : cacheFind? (quantKey prec x y z) c with
  | some v =>
    rw [cachedLookup_hit hfind]
    exact hc
  | none =>
    rw [cachedLookup_miss hfind]
    by_cases hmax : maxSize ≤ c.length
    · rw [if_pos hmax]
      simp only [List.length_append, List.length_drop, List.length_cons,
        List.length_nil]
      omega
    · rw [if_neg hmax]
      simp only [List.length_append, List.length_cons, List.length_nil]
      omega

/-- The sequence of cached lookups of `test4_optimized.py`: the cache
after each call feeds the next. -/
def runLookups (noise : ℚ → ℚ → ℚ → ℚ) (prec maxSize evictN : ℕ) :
    NoiseCache → List (ℚ × ℚ × ℚ) → NoiseCache
  | c, [] => c
  | c, p :: ps =>
      runLookups noise prec maxSize evictN
        ((cachedLookup noise prec maxSize evictN c p.1 p.2.1 p.2.2).2.1) ps

/-- The sequence of cached lookups of `test4_optimized_v2.py`. -/
def runLookupsV2 (noise : ℚ → ℚ → ℚ → ℚ) (enable_cache : Bool) :
    V2Cache → List (ℚ × ℚ × ℚ) → V2Cache
  | st, [] => st
  | st, p :: ps =>
      runLookupsV2 noise enable_cache
        ((get_noise_optimized noise enable_cache st p.1 p.2.1 p.2.2).2) ps

theorem runLookups_length_le (noise : ℚ → ℚ → ℚ → ℚ)
    (prec maxSize evictN : ℕ) (h1 : 1 ≤ evictN) (h2 : evictN ≤ maxSize) :
    ∀ (coords : List (ℚ × ℚ × ℚ)) (c : NoiseCache),
      c.length ≤ maxSize →
      (runLookups noise prec maxSize evictN c coords).length ≤ maxSize := by
  intro coords
  induction coords with
  | nil => intro c hc; exact hc
  | cons p ps ih =>
    intro c hc
    exact ih _ (cachedLookup_length_le noise prec maxSize evictN c
      p.1 p.2.1 p.2.2 h1 h2 hc)

theorem get_noise_optimized_length_le (noise : ℚ → ℚ → ℚ → ℚ)
    (enable_cache : Bool) (st : V2Cache) (x y z : ℚ)
    (hc : st.noise_cache.length ≤ 2000) :
    ((get_noise_optimized noise enable_cache st x y z).2).noise_cache.length ≤ 2000 := by
  unfold get_noise_optimized
  cases enable_cache with
  | false => simpa using hc
  | true =>
    simp only [if_pos]
    by_cases hinv : (cachedLookup noise 1 2000 (2000 / 2) st.noise_cache x y z).2.2
    · rw [if_pos hinv]
      exact cachedLookup_length_le noise 1 2000 (2000 / 2) st.noise_cache
        x y z (by norm_num) (by norm_num) hc
    · rw [if_neg hinv]
      simpa using hc

theorem runLookupsV2_length_le (noise : ℚ → ℚ → ℚ → ℚ) (enable_cache : Bool) :
    ∀ (coords : List (ℚ × ℚ × ℚ)) (st : V2Cache),
      st.noise_cache.length ≤ 2000 →
      (runLookupsV2 noise enable_cache st coords).noise_cache.length ≤ 2000 := by
  intro coords
  induction coords with
  | nil => intro st hc; exact hc
  | cons p ps ih =>
    intro st hc
    exact ih _ (get_noise_optimized_length_le noise enable_cache st
      p.1 p.2.1 p.2.2 hc)

/-- C2.  Starting from an empty cache, after any sequence of cached
lookups the cache of `test4_optimized.py` holds at most
`cache_max_size = 10000` entries and the cache of
`test4_optimized_v2.py` at most `cache_max_size = 2000`: eviction runs
on the miss path before insertion, so the bound is an invariant of
every lookup. -/
theorem cache_size_invariant (noise : ℚ → ℚ → ℚ → ℚ)
    (coords : List (ℚ × ℚ × ℚ)) (enable_cache : Bool) :
    (runLookups noise 2 10000 (10000 / 5) [] coords).length ≤ 10000 ∧
    (runLookupsV2 noise enable_cache ⟨[], 0, 0⟩ coords).noise_cache.length ≤ 2000 :=
  ⟨runLookups_length_le noise 2 10000 (10000 / 5) (by norm_num) (by norm_num)
      coords [] (by simp),
   runLookupsV2_length_le noise enable_cache coords ⟨[], 0, 0⟩ (by simp)⟩

/-- C3.  If two coordinates quantize to the same key and the key is not
yet cached, the first lookup invokes the noise source on its own
unquantized coordinates and stores that value; the second lookup
returns the identical stored value without invoking the noise source
(`invoked = false`) and leaves the cache unchanged. -/
theorem cache_second_lookup_no_recompute (noise : ℚ → ℚ → ℚ → ℚ)
    (prec maxSize evictN : ℕ) (c : NoiseCache) (x1 y1 z1 x2 y2 z2 : ℚ)
    (hkey : quantKey prec x2 y2 z2 = quantKey prec x1 y1 z1)
    (hmiss : cacheFind? (quantKey prec x1 y1 z1) c = none) :
    (cachedLookup noise prec maxSize evictN c x1 y1 z1).1 = noise x1 y1 z1 ∧
    (cachedLookup noise prec maxSize evictN c x1 y1 z1).2.2 = true ∧
    cachedLookup noise prec maxSize evictN
        (cachedLookup noise prec maxSize evictN c x1 y1 z1).2.1 x2 y2 z2
      = (noise x1 y1 z1,
         (cachedLookup noise prec maxSize evictN c x1 y1 z1).2.1, false) := by
  have hc1 : cachedLookup noise prec maxSize evictN c x1 y1 z1
      = (noise x1 y1 z1,
         (if maxSize ≤ c.length then c.drop evictN else c)
           ++ [(quantKey prec x1 y1 z1, noise x1 y1 z1)], true) :=
    cachedLookup_miss hmiss
  have hstill : cacheFind? (quantKey prec x1 y1 z1)
      (if maxSize ≤ c.length then c.drop evictN else c) = none := by
    by_cases hmax : maxSize ≤ c.length
    · rw [if_pos hmax]; exact cacheFind?_drop_of_none hmiss evictN
    · rw [if_neg hmax]; exact hmiss
  have hfound : cacheFind? (quantKey prec x2 y2 z2)
      ((if maxSize ≤ c.length then c.drop evictN else c)
        ++ [(quantKey prec x1 y1 z1, noise x1 y1 z1)])
      = some (noise x1 y1 z1) := by
    rw [hkey, cacheFind?_append_of_none hstill]
    simp [cacheFind?]
  refine ⟨by rw [hc1], by rw [hc1], ?_⟩
  rw [hc1]
  exact cachedLookup_hit hfound

/-- Witness for C3: `0.001` and `0.004` both round to `0.00` at
precision 2; the second lookup hits. -/
theorem cache_second_lookup_no_recompute_witness :
    quantKey 2 (4 / 1000) 0 0 = quantKey 2 (1 / 1000) 0 0 ∧
    cachedLookup (fun x y z : ℚ => x + y + z) 2 10000 (10000 / 5)
        ((cachedLookup (fun x y z : ℚ => x + y + z) 2 10000 (10000 / 5)
          [] (1 / 1000) 0 0).2.1) (4 / 1000) 0 0
      = ((fun x y z : ℚ => x + y + z) (1 / 1000) 0 0,
         (cachedLookup (fun x y z : ℚ => x + y + z) 2 10000 (10000 / 5)
           [] (1 / 1000) 0 0).2.1, false) :=
  ⟨by with_unfolding_all decide,
   (cache_second_lookup_no_recompute (fun x y z : ℚ => x + y + z)
      2 10000 (10000 / 5) [] (1 / 1000) 0 0 (4 / 1000) 0 0
      (by with_unfolding_all decide) rfl).2.2⟩

/-- C4.  When the cache is exactly full and the key is a miss, the
lookup removes exactly the first `maxSize // 5` (respectively
`maxSize // 2`, the two configured fractions of the two optimized
files) oldest-inserted entries — and no others — and then appends the
new key: the new cache is literally the old one with its first batch
dropped plus the new entry. -/
theorem cache_batch_eviction (noise : ℚ → ℚ → ℚ → ℚ) (prec maxSize : ℕ)
    (c : NoiseCache) (x y z : ℚ) (hfull : c.length = maxSize)
    (hmiss : cacheFind? (quantKey prec x y z) c = none) :
    (cachedLookup noise prec maxSize (maxSize / 5) c x y z).2.1
      = c.drop (maxSize / 5) ++ [(quantKey prec x y z, noise x y z)] ∧
    (cachedLookup noise prec maxSize (maxSize / 2) c x y z).2.1
      = c.drop (maxSize / 2) ++ [(quantKey prec x y z, noise x y z)] := by
  constructor <;>
    · rw [cachedLookup_miss hmiss]
      rw [if_pos (le_of_eq hfull.symm)]

/-- Witness for C4 with a full five-entry cache: the batch is the
oldest fifth (one entry), respectively the oldest half (two entries). -/
theorem cache_batch_eviction_witness :
    (([((1, 0, 0), 0), ((2, 0, 0), 0), ((3, 0, 0), 0), ((4, 0, 0), 0),
       ((5, 0, 0), 0)] : NoiseCache).length = 5) ∧
    cacheFind? (quantKey 2 (1 / 1000) 0 0)
        [((1, 0, 0), 0), ((2, 0, 0), 0), ((3, 0, 0), 0), ((4, 0, 0), 0),
         ((5, 0, 0), 0)] = none ∧
    (cachedLookup (fun _ _ _ : ℚ => 7) 2 5 (5 / 5)
        [((1, 0, 0), 0), ((2, 0, 0), 0), ((3, 0, 0), 0), ((4, 0, 0), 0),
         ((5, 0, 0), 0)] (1 / 1000) 0 0).2.1
      = [((2, 0, 0), 0), ((3, 0, 0), 0), ((4, 0, 0), 0), ((5, 0, 0), 0)]
          ++ [(quantKey 2 (1 / 1000) 0 0, 7)] ∧
    (cachedLookup (fun _ _ _ : ℚ => 7) 2 5 (5 / 2)
        [((1, 0, 0), 0), ((2, 0, 0), 0), ((3, 0, 0), 0), ((4, 0, 0), 0),
         ((5, 0, 0), 0)] (1 / 1000) 0 0).2.1
      = [((3, 0, 0), 0), ((4, 0, 0), 0), ((5, 0, 0), 0)]
          ++ [(quantKey 2 (1 / 1000) 0 0, 7)] := by
  have h := cache_batch_eviction (fun _ _ _ : ℚ => 7) 2 5
    [((1, 0, 0), 0), ((2, 0, 0), 0), ((3, 0, 0), 0), ((4, 0, 0), 0),
     ((5, 0, 0), 0)] (1 / 1000) 0 0 (by rfl) (by with_unfolding_all decide)
  exact ⟨rfl, by with_unfolding_all decide, h.1, h.2⟩

/-! ## Mouse escape-sequence decoder (`test4.py` lines 146-160,
`test4_optimized.py` lines 207-225) -/

/-- Python `s.split(sep)` for a single-character separator, on the
character list of the string (`"".split(sep) = [""]`,
`"aMMb".split("M") = ["a", "", "b"]`). -/
def pySplit (sep : Char) : List Char → List (List Char)
  | [] => [[]]
  | c :: rest =>
      if c = sep then [] :: pySplit sep rest
      else
        match pySplit sep rest with
        | [] => [[c]]
        | s :: ss => (c :: s) :: ss

/-- `instream.replace("\x1b", "").replace("[", "").replace("<", "")`:
the three one-character markers are deleted wherever they occur. -/
def stripMarkers (cs : List Char) : List Char :=
  cs.filter fun c => !(c == '\x1b' || c == '[' || c == '<')

/-- Digit-sequence value accumulator for `pyToInt?`. -/
def digitsToNatAux : ℕ → List Char → Option ℕ
  | acc, [] => some acc
  | acc, c :: rest =>
      if c.isDigit then digitsToNatAux (10 * acc + (c.toNat - 48)) rest
      else none

/-- Python `int(s)` on a string: optional sign followed by one or more
decimal digits; anything else raises `ValueError`, modelled as `none`.
(CPython also accepts surrounding whitespace and underscores between
digits; no input under study contains either.) -/
def pyToInt? : List Char → Option ℤ
  | [] => none
  | '-' :: rest =>
      if rest = [] then none
      else (digitsToNatAux 0 rest).map fun n => -(n : ℤ)
  | '+' :: rest =>
      if rest = [] then none
      else (digitsToNatAux 0 rest).map fun n => (n : ℤ)
  | cs => (digitsToNatAux 0 cs).map fun n => (n : ℤ)

/-- The decoded mouse events of the spec (§3): code 35 is a position
update, SGR code 64 is wheel-up, 65 is wheel-down, anything else is
unrecognized, carrying its raw fields. -/
inductive MouseRawEvent where
  | move (col row : ℤ)
  | wheelUp
  | wheelDown
  | unrecognized (fields : List (List Char))
deriving DecidableEq

/-- Event-level view of the `test4.py` entry loop (lines 148-160): each
nonempty segment is split on `;`; code 35 reads `int(metainfo[1])` and
`int(metainfo[2])` with no field-count guard and no exception handler,
so a missing or non-integer field raises (modelled `Except.error`),
aborting the remaining segments; codes 65/64 adjust the wheel; anything
else is logged to the debug file (the Unrecognized classification). -/
def decode4Events : List (List Char) → Except Unit (List MouseRawEvent)
  | [] => .ok []
  | entry :: rest =>
      if entry = [] then decode4Events rest
      else
        let metainfo := pySplit ';' entry
        if metainfo.headD [] = ['3', '5'] then
          match metainfo with
          | _ :: f1 :: f2 :: _ =>
            match pyToInt? f1, pyToInt? f2 with
            | some col, some row =>
                (decode4Events rest).map fun es => .move col row :: es
            | _, _ => .error ()
          | _ => .error ()
        else if metainfo.headD [] = ['6', '5'] then
          (decode4Events rest).map fun es => .wheelDown :: es
        else if metainfo.headD [] = ['6', '4'] then
          (decode4Events rest).map fun es => .wheelUp :: es
        else
          (decode4Events rest).map fun es => .unrecognized metainfo :: es

/-- `test4.py` decoding of one raw input chunk: strip the markers,
split on `M`, process the segments in order. -/
def decode4 (chunk : List Char) : Except Unit (List MouseRawEvent) :=
  decode4Events (pySplit 'M' (stripMarkers chunk))

/-- Event-level view of the `test4_optimized.py` entry loop (lines
211-225): segments with fewer than 3 `;`-fields are skipped silently
(no event, no log); for code 35 a field that fails `int()` is swallowed
by the `except (ValueError, IndexError): pass` handler; unmatched codes
with enough fields produce nothing.  Decoding never aborts. -/
def decodeOptEvents : List (List Char) → List MouseRawEvent
  | [] => []
  | entry :: rest =>
      if entry = [] then decodeOptEvents rest
      else
        let metainfo := pySplit ';' entry
        if 3 ≤ metainfo.length then
          if metainfo.headD [] = ['3', '5'] then
            match pyToInt? (metainfo.getD 1 []), pyToInt? (metainfo.getD 2 []) with
            | some col, some row => .move col row :: decodeOptEvents rest
            | _, _ => decodeOptEvents rest
          else if metainfo.headD [] = ['6', '5'] then
            .wheelDown :: decodeOptEvents rest
          else if metainfo.headD [] = ['6', '4'] then
            .wheelUp :: decodeOptEvents rest
          else decodeOptEvents rest
        else decodeOptEvents rest

/-- `test4_optimized.py` decoding of one raw input chunk. -/
def decodeOpt (chunk : List Char) : List MouseRawEvent :=
  decodeOptEvents (pySplit 'M' (stripMarkers chunk))

/-- C5 counterexample.  The claim as stated fails on both cited
implementations: `test4.py` raises on the move segment `35;10` (fewer
than 3 fields is not classified Unrecognized but an uncaught
IndexError), and `test4_optimized.py` decodes the claim's example chunk
to just `[Move 10 5]` — the one-field segments `64` and `garbage` are
silently skipped by the `len >= 3` guard, so no WheelUp and no
Unrecognized are produced. -/
theorem decoder_claim_counterexample :
    decode4 ("\x1b[<35;10M".data) = .error () ∧
    decodeOpt ("\x1b[<35;10;5M\x1b[<64M\x1b[<garbageM".data)
      = [.move 10 5] := by
  exact ⟨rfl, rfl⟩

/-- C5 amended.  `test4.py` decodes the example chunk to exactly
[Move 10 5, WheelUp, Unrecognized "garbage"] (its two branches have no
field-count guard, so the single-field `64` does reach the wheel
branch), but raises on a move segment with a missing or non-integer
field.  `test4_optimized.py` never raises and never stops early —
a malformed move segment is swallowed and later segments are still
decoded — but segments with fewer than 3 fields are skipped, not
classified, so its decode of the example chunk is exactly
[Move 10 5]. -/
theorem decoder_resilience_amended :
    decode4 ("\x1b[<35;10;5M\x1b[<64M\x1b[<garbageM".data)
      = .ok [.move 10 5, .wheelUp,
             .unrecognized [['g', 'a', 'r', 'b', 'a', 'g', 'e']]] ∧
    decodeOpt ("\x1b[<35;10;5M\x1b[<64M\x1b[<garbageM".data)
      = [.move 10 5] ∧
    decodeOpt ("\x1b[<35;10;xyM\x1b[<64;1;1M".data) = [.wheelUp] := by
  exact ⟨rfl, rfl, rfl⟩

/-- The mouse-related mutable state of the main loops. -/
structure MouseState where
  mousex : ℤ
  mousey : ℤ
  zvelocity : ℚ
deriving DecidableEq

/-- State-level view of the `test4.py` entry loop: assignments happen
in Python evaluation order (`mousex = int(metainfo[1])` before
`mousey = int(metainfo[2])`), and an exception propagates uncaught —
modelled as `Except.error st` carrying the partially updated state. -/
def apply4Entries : MouseState → List (List Char) → Except MouseState MouseState
  | st, [] => .ok st
  | st, entry :: rest =>
      if entry = [] then apply4Entries st rest
      else
        let metainfo := pySplit ';' entry
        if metainfo.headD [] = ['3', '5'] then
          match metainfo.drop 1 with
          | [] => .error st
          | f1 :: tail =>
            match pyToInt? f1 with
            | none => .error st
            | some col =>
              match tail with
              | [] => .error { st with mousex := col }
              | f2 :: _ =>
                match pyToInt? f2 with
                | none => .error { st with mousex := col }
                | some row =>
                    apply4Entries { st with mousex := col, mousey := row } rest
        else if metainfo.headD [] = ['6', '5'] then
          apply4Entries { st with zvelocity := st.zvelocity - 1 / 100 } rest
        else if metainfo.headD [] = ['6', '4'] then
          apply4Entries { st with zvelocity := st.zvelocity + 1 / 100 } rest
        else
          apply4Entries st rest

/-- `test4.py` applied to one raw chunk. -/
def apply4 (st : MouseState) (chunk : List Char) : Except MouseState MouseState :=
  apply4Entries st (pySplit 'M' (stripMarkers chunk))

/-- State-level view of the `test4_optimized.py` entry loop: the
`try` wraps the whole code dispatch, `except (ValueError, IndexError):
pass` keeps whatever assignments already happened and moves on to the
next segment. -/
def applyOptEntries : MouseState → List (List Char) → MouseState
  | st, [] => st
  | st, entry :: rest =>
      if entry = [] then applyOptEntries st rest
      else
        let metainfo := pySplit ';' entry
        if 3 ≤ metainfo.length then
          if metainfo.headD [] = ['3', '5'] then
            match pyToInt? (metainfo.getD 1 []) with
            | none => applyOptEntries st rest
            | some col =>
              match pyToInt? (metainfo.getD 2 []) with
              | none => applyOptEntries { st with mousex := col } rest
              | some row =>
                  applyOptEntries { st with mousex := col, mousey := row } rest
          else if metainfo.headD [] = ['6', '5'] then
            applyOptEntries { st with zvelocity := st.zvelocity - 1 / 100 } rest
          else if metainfo.headD [] = ['6', '4'] then
            applyOptEntries { st with zvelocity := st.zvelocity + 1 / 100 } rest
          else applyOptEntries st rest
        else applyOptEntries st rest

/-- `test4_optimized.py` applied to one raw chunk. -/
def applyOpt (st : MouseState) (chunk : List Char) : MouseState :=
  applyOptEntries st (pySplit 'M' (stripMarkers chunk))

/-- C10.  Applying the move segment `35;10;xy` (second field parses,
third does not) is not atomic: in `test4_optimized.py` the exception is
swallowed after `mousex` was already set to 10, leaving `mousey`
untouched; in `test4.py` the same partial update happens and the
exception then propagates uncaught. -/
theorem move_partial_update (st : MouseState) :
    applyOpt st ("\x1b[<35;10;xyM".data) = { st with mousex := 10 } ∧
    apply4 st ("\x1b[<35;10;xyM".data) = .error { st with mousex := 10 } :=
  ⟨rfl, rfl⟩

/-! ## Frame rendering (`NoiseRenderer.render_frame_optimized`,
`OptimizedNoiseRenderer.render_frame_fast`) and the per-frame step of
the optimized main loops -/

/-- `self.rgb_template.format(r, g, b_color)` of `test4_optimized.py`
(template `ESC [48;2;` R `;` G `;` B `m` SPACE), identical to the
f-string built from `escape_start`/`escape_end` in
`test4_optimized_v2.py` line 131.  `Nat.repr` is Python's decimal
formatting of a nonnegative integer. -/
def render_token (r g b_color : ℕ) : String :=
  "\x1B[48;2;" ++ Nat.repr r ++ ";" ++ Nat.repr g ++ ";"
    ++ Nat.repr b_color ++ "m "

/-- Inner `for x in range(self.width)` loop of
`render_frame_optimized` (`test4_optimized.py` lines 109-120):
`xpos = x/10 + xoffset`, cached lookup, clamp, append one token. -/
def renderRowOpt (noise : ℚ → ℚ → ℚ → ℚ) (xoffset ypos zpos mx b : ℚ)
    (framecount : ℕ) : NoiseCache → List ℕ → List String × NoiseCache
  | c, [] => ([], c)
  | c, x :: xs =>
      let r := get_noise_cached noise c ((x : ℚ) / 10 + xoffset) ypos zpos
      let val := (mapToIntensityOpt r.1 mx b).toNat
      let rest := renderRowOpt noise xoffset ypos zpos mx b framecount r.2 xs
      (render_token val (255 - val) (framecount % 255) :: rest.1, rest.2)

/-- Outer `for y in range(self.height)` loop of
`render_frame_optimized`: `ypos = y/5 + yoffset`, `zpos = zoffset`,
rows joined once per line. -/
def renderRowsOpt (noise : ℚ → ℚ → ℚ → ℚ) (xoffset yoffset zoffset mx b : ℚ)
    (framecount width : ℕ) : NoiseCache → List ℕ → List String × NoiseCache
  | c, [] => ([], c)
  | c, y :: ys =>
      let row := renderRowOpt noise xoffset ((y : ℚ) / 5 + yoffset) zoffset
        mx b framecount c (List.range width)
      let rest := renderRowsOpt noise xoffset yoffset zoffset mx b framecount
        width row.2 ys
      (String.join row.1 :: rest.1, rest.2)

/-- `NoiseRenderer.render_frame_optimized` of `test4_optimized.py`
lines 96-125: returns the frame's row strings and the mutated noise
cache. -/
def render_frame_optimized (noise : ℚ → ℚ → ℚ → ℚ)
    (xoffset yoffset zoffset mx b : ℚ) (framecount width height : ℕ)
    (c : NoiseCache) : List String × NoiseCache :=
  renderRowsOpt noise xoffset yoffset zoffset mx b framecount width c
    (List.range height)

/-- Inner pixel loop of `render_frame_fast`
(`test4_optimized_v2.py` lines 116-131). -/
def renderRowV2 (noise : ℚ → ℚ → ℚ → ℚ) (enable_cache : Bool)
    (xoffset ypos zoffset mx b : ℚ) (framecount : ℕ) :
    V2Cache → List ℕ → List String × V2Cache
  | st, [] => ([], st)
  | st, x :: xs =>
      let r := get_noise_optimized noise enable_cache st
        ((x : ℚ) / 10 + xoffset) ypos zoffset
      let val := (mapToIntensityV2 r.1 mx b).toNat
      let rest := renderRowV2 noise enable_cache xoffset ypos zoffset mx b
        framecount r.2 xs
      (render_token val (255 - val) (framecount % 255) :: rest.1, rest.2)

/-- Row loop of `render_frame_fast`. -/
def renderRowsV2 (noise : ℚ → ℚ → ℚ → ℚ) (enable_cache : Bool)
    (xoffset yoffset zoffset mx b : ℚ) (framecount width : ℕ) :
    V2Cache → List ℕ → List String × V2Cache
  | st, [] => ([], st)
  | st, y :: ys =>
      let row := renderRowV2 noise enable_cache xoffset ((y : ℚ) / 5 + yoffset)
        zoffset mx b framecount st (List.range width)
      let rest := renderRowsV2 noise enable_cache xoffset yoffset zoffset mx b
        framecount width row.2 ys
      (String.join row.1 :: rest.1, rest.2)

/-- `OptimizedNoiseRenderer.render_frame_fast` of
`test4_optimized_v2.py` lines 106-135. -/
def render_frame_fast (noise : ℚ → ℚ → ℚ → ℚ) (enable_cache : Bool)
    (xoffset yoffset zoffset mx b : ℚ) (framecount width height : ℕ)
    (st : V2Cache) : List String × V2Cache :=
  renderRowsV2 noise enable_cache xoffset yoffset zoffset mx b framecount
    width st (List.range height)

/-- The mutable state of the `test4_optimized.py` main loop (lines
141-180 initialization): frame counter, mouse position, offsets,
velocities, dynamic-range pair `mx`/`b`, the min/max trackers and the
renderer's noise cache. -/
structure LoopState where
  framecount : ℕ
  mousex : ℤ
  mousey : ℤ
  xoffset : ℚ
  yoffset : ℚ
  zoffset : ℚ
  xvelocity : ℚ
  yvelocity : ℚ
  zvelocity : ℚ
  mx : ℚ
  b : ℚ
  minfound : ℚ
  maxfound : ℚ
  cache : NoiseCache
deriving DecidableEq

/-- Initial globals of `test4_optimized.py` (`framecount = 0`,
`mousex = mousey = 0`, offsets 0, `xvelocity = yvelocity = 0.01`,
`zvelocity = 0`, `mx = b = 127.5`, `minfound = maxfound = 0.0`, empty
cache). -/
def initLoopState : LoopState :=
  ⟨0, 0, 0, 0, 0, 0, 1 / 100, 1 / 100, 0, 255 / 2, 255 / 2, 0, 0, []⟩

/-- One iteration of the `test4_optimized.py` main loop (lines
184-275), with the excluded collaborators (curses input, screen-size
polling, stdout, sleep, FPS) elided: increment `framecount`, recompute
the velocities through `mxplusb`, integrate the offsets, render the
frame (mutating the cache; the row strings go to stdout), and every
10th frame recalibrate `[mx, b] = mxplusb(0, minfound, 255, maxfound)`.
A `ZeroDivisionError` from `mxplusb` is `none`.  Note that nothing in
the loop body ever writes `minfound`/`maxfound`. -/
def stepOpt (noise : ℚ → ℚ → ℚ → ℚ) (width height : ℕ) (st : LoopState) :
    Option LoopState :=
  match mxplusb (-1) 0 1 (width : ℚ) with
  | none => none
  | some xmb =>
    match mxplusb (-1) 0 1 (height : ℚ) with
    | none => none
    | some ymb =>
      let xvelocity := (st.mousex : ℚ) * xmb.1 + xmb.2
      let yvelocity := (st.mousey : ℚ) * ymb.1 + ymb.2
      let xoffset := st.xoffset + xvelocity
      let yoffset := st.yoffset + yvelocity
      let zoffset := st.zoffset + st.zvelocity
      let frame := render_frame_optimized noise xoffset yoffset zoffset
        st.mx st.b (st.framecount + 1) width height st.cache
      if (st.framecount + 1) % 10 = 0 then
        match mxplusb 0 st.minfound 255 st.maxfound with
        | none => none
        | some mb =>
            some { st with
              framecount := st.framecount + 1
              xvelocity := xvelocity
              yvelocity := yvelocity
              xoffset := xoffset
              yoffset := yoffset
              zoffset := zoffset
              cache := frame.2
              mx := mb.1
              b := mb.2 }
      else
        some { st with
          framecount := st.framecount + 1
          xvelocity := xvelocity
          yvelocity := yvelocity
          xoffset := xoffset
          yoffset := yoffset
          zoffset := zoffset
          cache := frame.2 }

/-- The mutable state of the `test4_optimized_v2.py` main loop. -/
structure LoopStateV2 where
  framecount : ℕ
  mousex : ℤ
  mousey : ℤ
  xoffset : ℚ
  yoffset : ℚ
  zoffset : ℚ
  xvelocity : ℚ
  yvelocity : ℚ
  zvelocity : ℚ
  mx : ℚ
  b : ℚ
  minfound : ℚ
  maxfound : ℚ
  v2cache : V2Cache
deriving DecidableEq

/-- Initial globals of `test4_optimized_v2.py`. -/
def initLoopStateV2 : LoopStateV2 :=
  ⟨0, 0, 0, 0, 0, 0, 1 / 100, 1 / 100, 0, 255 / 2, 255 / 2, 0, 0, ⟨[], 0, 0⟩⟩

/-- One iteration of the `test4_optimized_v2.py` main loop (lines
199-287): simplified velocities `(mouse - centre) * 0.001`, offset
integration, `render_frame_fast`, and the same every-10th-frame
recalibration through `mxplusb`.  Nothing writes
`minfound`/`maxfound`. -/
def stepV2 (noise : ℚ → ℚ → ℚ → ℚ) (enable_cache : Bool)
    (width height : ℕ) (st : LoopStateV2) : Option LoopStateV2 :=
  let xvelocity := ((st.mousex : ℚ) - (width : ℚ) / 2) * (1 / 1000)
  let yvelocity := ((st.mousey : ℚ) - (height : ℚ) / 2) * (1 / 1000)
  let xoffset := st.xoffset + xvelocity
  let yoffset := st.yoffset + yvelocity
  let zoffset := st.zoffset + st.zvelocity
  let frame := render_frame_fast noise enable_cache xoffset yoffset zoffset
    st.mx st.b (st.framecount + 1) width height st.v2cache
  if (st.framecount + 1) % 10 = 0 then
    match mxplusb 0 st.minfound 255 st.maxfound with
    | none => none
    | some mb =>
        some { st with
          framecount := st.framecount + 1
          xvelocity := xvelocity
          yvelocity := yvelocity
          xoffset := xoffset
          yoffset := yoffset
          zoffset := zoffset
          v2cache := frame.2
          mx := mb.1
          b := mb.2 }
  else
    some { st with
      framecount := st.framecount + 1
      xvelocity := xvelocity
      yvelocity := yvelocity
      xoffset := xoffset
      yoffset := yoffset
      zoffset := zoffset
      v2cache := frame.2 }

/-- Iterating the main loop: stop (`none`) at the first uncaught
exception. -/
def runFrames {α : Type} (step : α → Option α) : ℕ → α → Option α
  | 0, st => some st
  | n + 1, st =>
      match step st with
      | none => none
      | some s => runFrames step n s

/-- A constant stand-in for the opaque deterministic noise source. -/
def constNoise : ℚ → ℚ → ℚ → ℚ := fun _ _ _ => 0

/-- A noise source returning `-0.5` everywhere, used to exhibit a
sampled value strictly below the untouched `minfound` tracker. -/
def negNoise : ℚ → ℚ → ℚ → ℚ := fun _ _ _ => -(1 / 2)

/-- No iteration of the `test4_optimized.py` loop writes the min/max
trackers. -/
theorem stepOpt_minmax_invariant (noise : ℚ → ℚ → ℚ → ℚ)
    (width height : ℕ) (st : LoopState) :
    (stepOpt noise width height st).elim True
      (fun s => s.minfound = st.minfound ∧ s.maxfound = st.maxfound) := by
  unfold stepOpt
  cases mxplusb (-1) 0 1 (width : ℚ) with
  | none => exact trivial
  | some xmb =>
    cases mxplusb (-1) 0 1 (height : ℚ) with
    | none => exact trivial
    | some ymb =>
      simp only
      by_cases h10 : (st.framecount + 1) % 10 = 0
      · rw [if_pos h10]
        cases mxplusb 0 st.minfound 255 st.maxfound with
        | none => exact trivial
        | some mb => exact ⟨rfl, rfl⟩
      · rw [if_neg h10]
        exact ⟨rfl, rfl⟩

/-- No iteration of the `test4_optimized_v2.py` loop writes the
min/max trackers. -/
theorem stepV2_minmax_invariant (noise : ℚ → ℚ → ℚ → ℚ)
    (enable_cache : Bool) (width height : ℕ) (st : LoopStateV2) :
    (stepV2 noise enable_cache width height st).elim True
      (fun s => s.minfound = st.minfound ∧ s.maxfound = st.maxfound) := by
  unfold stepV2
  simp only
  by_cases h10 : (st.framecount + 1) % 10 = 0
  · rw [if_pos h10]
    cases mxplusb 0 st.minfound 255 st.maxfound with
    | none => exact trivial
    | some mb => exact ⟨rfl, rfl⟩
  · rw [if_neg h10]
    exact ⟨rfl, rfl⟩

/-- C6.  The claim says `renderFrame` updates
`minObserved`/`maxObserved` with every raw noise value sampled in the
frame.  `test4.py` does (lines 218-219), but neither
`render_frame_optimized` nor `render_frame_fast` — nor anything in the
optimized main loops — ever writes `minfound`/`maxfound`: rendering a
1×1 frame whose single sampled raw value is `-1/2` leaves both
trackers at 0, even though `-1/2 < 0 = minfound` (the sampled value is
the one stored in the cache).  The spec (§4.3) states the side effect
as mandatory, and the stale trackers crash the optimized loops'
recalibration (claim C9), so this is a code bug, not an intended
behavior. -/
theorem render_does_not_update_minmax :
    (∀ (noise : ℚ → ℚ → ℚ → ℚ) (width height : ℕ) (st : LoopState),
      (stepOpt noise width height st).elim True
        (fun s => s.minfound = st.minfound ∧ s.maxfound = st.maxfound)) ∧
    (∀ (noise : ℚ → ℚ → ℚ → ℚ) (enable_cache : Bool) (width height : ℕ)
      (st : LoopStateV2),
      (stepV2 noise enable_cache width height st).elim True
        (fun s => s.minfound = st.minfound ∧ s.maxfound = st.maxfound)) ∧
    (stepOpt negNoise 1 1 initLoopState).map (fun s => s.cache.map Prod.snd)
      = some [-(1 / 2)] ∧
    (stepOpt negNoise 1 1 initLoopState).map LoopState.minfound = some 0 ∧
    (stepOpt negNoise 1 1 initLoopState).map LoopState.maxfound = some 0 ∧
    (stepV2 negNoise true 1 1 initLoopStateV2).map
        (fun s => s.v2cache.noise_cache.map Prod.snd) = some [-(1 / 2)] ∧
    (stepV2 negNoise true 1 1 initLoopStateV2).map LoopStateV2.minfound
      = some 0 ∧
    ¬ ((0 : ℚ) ≤ -(1 / 2)) := by
  refine ⟨stepOpt_minmax_invariant, stepV2_minmax_invariant, ?_, ?_, ?_, ?_, ?_, ?_⟩ <;>
    with_unfolding_all decide

/-- C9.  `mxplusb` divides by `act2 - act1`, so it raises
`ZeroDivisionError` whenever `act2 == act1`; the optimized main loops
call it unguarded as `mxplusb(0, minfound, 255, maxfound)` every 10th
frame, and since nothing updates `minfound`/`maxfound` from their
initial `0.0`, frame 10 is always reached with `act1 == act2 == 0.0`:
after 9 successful frames (trackers still 0) the 10th iteration of
either optimized loop dies. -/
theorem recalibration_divides_by_zero :
    (∀ exp1 act exp2 : ℚ, mxplusb exp1 act exp2 act = none) ∧
    (runFrames (stepOpt constNoise 1 1) 9 initLoopState).map
        LoopState.minfound = some 0 ∧
    (runFrames (stepOpt constNoise 1 1) 9 initLoopState).map
        LoopState.maxfound = some 0 ∧
    runFrames (stepOpt constNoise 1 1) 10 initLoopState = none ∧
    (runFrames (stepV2 constNoise true 1 1) 9 initLoopStateV2).map
        LoopStateV2.minfound = some 0 ∧
    runFrames (stepV2 constNoise true 1 1) 10 initLoopStateV2 = none := by
  refine ⟨fun exp1 act exp2 => ?_, ?_, ?_, ?_, ?_, ?_⟩
  · unfold mxplusb
    rw [if_pos (sub_self act)]
  all_goals with_unfolding_all decide

/-! ## End-to-end frame properties (`render_frame_optimized`) -/

/-- Unfolding `get_noise_cached` on a hit: value returned, cache
untouched. -/
theorem get_noise_cached_hit {noise : ℚ → ℚ → ℚ → ℚ} {c : NoiseCache}
    {x y z v : ℚ} (h : cacheFind? (quantKey 2 x y z) c = some v) :
    get_noise_cached noise c x y z = (v, c) := by
  unfold get_noise_cached
  rw [cachedLookup_hit h]

/-- Unfolding `get_noise_cached` on a miss while the cache is below the
bound: no eviction, the new entry is appended. -/
theorem get_noise_cached_miss_small {noise : ℚ → ℚ → ℚ → ℚ}
    {c : NoiseCache} {x y z : ℚ}
    (h : cacheFind? (quantKey 2 x y z) c = none) (hlen : c.length < 10000) :
    get_noise_cached noise c x y z
      = (noise x y z, c ++ [(quantKey 2 x y z, noise x y z)]) := by
  unfold get_noise_cached
  rw [cachedLookup_miss h, if_neg (not_le.mpr hlen)]

/-- Replaying one row: as long as no eviction can trigger
(`c.length + xs.length ≤ 10000`), a row render only appends to the
cache, grows it by at most one entry per cell, and — run again from
the resulting cache (or any extension of it) — produces the identical
token list without touching the cache. -/
theorem renderRowOpt_replay (noise : ℚ → ℚ → ℚ → ℚ)
    (xoffset ypos zpos mx b : ℚ) (fc : ℕ) :
    ∀ (xs : List ℕ) (c : NoiseCache) (toks : List String) (c2 : NoiseCache),
      c.length + xs.length ≤ 10000 →
      renderRowOpt noise xoffset ypos zpos mx b fc c xs = (toks, c2) →
      (∃ d, c2 = c ++ d) ∧ c2.length ≤ c.length + xs.length ∧
      ∀ e : NoiseCache,
        renderRowOpt noise xoffset ypos zpos mx b fc (c2 ++ e) xs
          = (toks, c2 ++ e) := by
  intro xs
  induction xs with
  | nil =>
    intro c toks c2 hc hrun
    simp only [renderRowOpt] at hrun
    injection hrun with h1 h2
    subst h1
    subst h2
    exact ⟨⟨[], (List.append_nil c).symm⟩, by simp, fun e => rfl⟩
  | cons x xs ih =>
    intro c toks c2 hc hrun
    cases hfind : cacheFind? (quantKey 2 ((x : ℚ) / 10 + xoffset) ypos zpos) c with
    | some v =>
      simp only [renderRowOpt, get_noise_cached_hit hfind] at hrun
      obtain ⟨⟨d, hd⟩, hlen, hrep⟩ :=
        ih c (renderRowOpt noise xoffset ypos zpos mx b fc c xs).1
          (renderRowOpt noise xoffset ypos zpos mx b fc c xs).2
          (by simp only [List.length_cons] at hc; omega) rfl
      injection hrun with h1 h2
      subst h1
      subst h2
      refine ⟨⟨d, hd⟩, by simp only [List.length_cons]; omega, ?_⟩
      intro e
      have hv2 : cacheFind? (quantKey 2 ((x : ℚ) / 10 + xoffset) ypos zpos)
          ((renderRowOpt noise xoffset ypos zpos mx b fc c xs).2 ++ e)
          = some v := by
        rw [hd, List.append_assoc]
        exact cacheFind?_append_of_some hfind (d ++ e)
      simp only [renderRowOpt, get_noise_cached_hit hv2]
      rw [hrep e]
    | none =>
      have hlt : c.length < 10000 := by
        simp only [List.length_cons] at hc
        omega
      simp only [renderRowOpt, get_noise_cached_miss_small hfind hlt] at hrun
      obtain ⟨⟨d, hd⟩, hlen, hrep⟩ :=
        ih (c ++ [(quantKey 2 ((x : ℚ) / 10 + xoffset) ypos zpos,
              noise ((x : ℚ) / 10 + xoffset) ypos zpos)])
          (renderRowOpt noise xoffset ypos zpos mx b fc
            (c ++ [(quantKey 2 ((x : ℚ) / 10 + xoffset) ypos zpos,
              noise ((x : ℚ) / 10 + xoffset) ypos zpos)]) xs).1
          (renderRowOpt noise xoffset ypos zpos mx b fc
            (c ++ [(quantKey 2 ((x : ℚ) / 10 + xoffset) ypos zpos,
              noise ((x : ℚ) / 10 + xoffset) ypos zpos)]) xs).2
          (by simp only [List.length_append, List.length_cons, List.length_nil,
                List.length_cons] at hc ⊢; omega) rfl
      injection hrun with h1 h2
      subst h1
      subst h2
      constructor
      · exact ⟨[(quantKey 2 ((x : ℚ) / 10 + xoffset) ypos zpos,
            noise ((x : ℚ) / 10 + xoffset) ypos zpos)] ++ d,
          by rw [hd, List.append_assoc]⟩
      constructor
      · simp only [List.length_append, List.length_cons, List.length_nil] at hlen ⊢
        omega
      intro e
      have hv2 : cacheFind? (quantKey 2 ((x : ℚ) / 10 + xoffset) ypos zpos)
          ((renderRowOpt noise xoffset ypos zpos mx b fc
            (c ++ [(quantKey 2 ((x : ℚ) / 10 + xoffset) ypos zpos,
              noise ((x : ℚ) / 10 + xoffset) ypos zpos)]) xs).2 ++ e)
          = some (noise ((x : ℚ) / 10 + xoffset) ypos zpos) := by
        rw [hd, List.append_assoc, List.append_assoc,
          cacheFind?_append_of_none hfind]
        simp [cacheFind?]
      simp only [renderRowOpt, get_noise_cached_hit hv2]
      rw [hrep e]

/-- Replaying a whole frame: below the eviction bound, rendering again
from the post-frame cache (or any extension) reproduces the identical
row strings and leaves the cache unchanged. -/
theorem renderRowsOpt_replay (noise : ℚ → ℚ → ℚ → ℚ)
    (xoffset yoffset zoffset mx b : ℚ) (fc width : ℕ) :
    ∀ (ys : List ℕ) (c : NoiseCache) (rows : List String) (c2 : NoiseCache),
      c.length + ys.length * width ≤ 10000 →
      renderRowsOpt noise xoffset yoffset zoffset mx b fc width c ys
        = (rows, c2) →
      (∃ d, c2 = c ++ d) ∧ c2.length ≤ c.length + ys.length * width ∧
      ∀ e : NoiseCache,
        renderRowsOpt noise xoffset yoffset zoffset mx b fc width (c2 ++ e) ys
          = (rows, c2 ++ e) := by
  intro ys
  induction ys with
  | nil =>
    intro c rows c2 hc hrun
    simp only [renderRowsOpt] at hrun
    injection hrun with h1 h2
    subst h1
    subst h2
    exact ⟨⟨[], (List.append_nil c).symm⟩, by simp, fun e => rfl⟩
  | cons y ys ih =>
    intro c rows c2 hc hrun
    have hcw : c.length + width ≤ 10000 := by
      simp only [List.length_cons] at hc
      calc c.length + width ≤ c.length + (ys.length + 1) * width := by
            have : width ≤ (ys.length + 1) * width :=
              Nat.le_mul_of_pos_left width (Nat.succ_pos ys.length)
            omega
        _ ≤ 10000 := hc
    obtain ⟨⟨d1, hd1⟩, hlen1, hrep1⟩ :=
      renderRowOpt_replay noise xoffset ((y : ℚ) / 5 + yoffset) zoffset mx b fc
        (List.range width) c
        (renderRowOpt noise xoffset ((y : ℚ) / 5 + yoffset) zoffset mx b fc c
          (List.range width)).1
        (renderRowOpt noise xoffset ((y : ℚ) / 5 + yoffset) zoffset mx b fc c
          (List.range width)).2
        (by rw [List.length_range]; exact hcw) rfl
    obtain ⟨⟨d2, hd2⟩, hlen2, hrep2⟩ :=
      ih (renderRowOpt noise xoffset ((y : ℚ) / 5 + yoffset) zoffset mx b fc c
          (List.range width)).2
        (renderRowsOpt noise xoffset yoffset zoffset mx b fc width
          (renderRowOpt noise xoffset ((y : ℚ) / 5 + yoffset) zoffset mx b fc c
            (List.range width)).2 ys).1
        (renderRowsOpt noise xoffset yoffset zoffset mx b fc width
          (renderRowOpt noise xoffset ((y : ℚ) / 5 + yoffset) zoffset mx b fc c
            (List.range width)).2 ys).2
        (by
          rw [List.length_range] at hlen1
          simp only [List.length_cons] at hc
          have : (ys.length + 1) * width = ys.length * width + width :=
            Nat.succ_mul ys.length width
          omega) rfl
    simp only [renderRowsOpt] at hrun
    injection hrun with h1 h2
    subst h1
    subst h2
    refine ⟨⟨d1 ++ d2, by rw [hd2, hd1, List.append_assoc]⟩, ?_, ?_⟩
    · rw [List.length_range] at hlen1
      simp only [List.length_cons]
      have : (ys.length + 1) * width = ys.length * width + width :=
        Nat.succ_mul ys.length width
      omega
    intro e
    have hrow : renderRowOpt noise xoffset ((y : ℚ) / 5 + yoffset) zoffset mx b
        fc ((renderRowsOpt noise xoffset yoffset zoffset mx b fc width
          (renderRowOpt noise xoffset ((y : ℚ) / 5 + yoffset) zoffset mx b fc c
            (List.range width)).2 ys).2 ++ e) (List.range width)
        = ((renderRowOpt noise xoffset ((y : ℚ) / 5 + yoffset) zoffset mx b fc c
            (List.range width)).1,
           (renderRowsOpt noise xoffset yoffset zoffset mx b fc width
            (renderRowOpt noise xoffset ((y : ℚ) / 5 + yoffset) zoffset mx b fc c
              (List.range width)).2 ys).2 ++ e) := by
      rw [hd2, List.append_assoc]
      exact hrep1 (d2 ++ e)
    simp only [renderRowsOpt, hrow]
    rw [hrep2 e]

/-- Every row render produces one token per column, each of the exact
documented shape with a clamped intensity. -/
theorem renderRowOpt_tokens (noise : ℚ → ℚ → ℚ → ℚ)
    (xoffset ypos zpos mx b : ℚ) (fc : ℕ) :
    ∀ (xs : List ℕ) (c : NoiseCache),
      (renderRowOpt noise xoffset ypos zpos mx b fc c xs).1.length = xs.length ∧
      ∀ t ∈ (renderRowOpt noise xoffset ypos zpos mx b fc c xs).1,
        ∃ n : ℕ, n ≤ 255 ∧ t = render_token n (255 - n) (fc % 255) := by
  intro xs
  induction xs with
  | nil =>
    intro c
    exact ⟨rfl, by intro t ht; simp [renderRowOpt] at ht⟩
  | cons x xs ih =>
    intro c
    constructor
    · simp only [renderRowOpt, List.length_cons]
      rw [(ih _).1]
    · intro t ht
      simp only [renderRowOpt] at ht
      rcases List.mem_cons.mp ht with h | h
      · refine ⟨(mapToIntensityOpt
            (get_noise_cached noise c ((x : ℚ) / 10 + xoffset) ypos zpos).1
            mx b).toNat, ?_, h⟩
        have hm := mapToIntensityOpt_mem
          (get_noise_cached noise c ((x : ℚ) / 10 + xoffset) ypos zpos).1 mx b
        omega
      · exact (ih _).2 t h

/-- Every frame render produces one row string per grid row, each the
join of exactly `width` tokens of the documented shape. -/
theorem renderRowsOpt_rows (noise : ℚ → ℚ → ℚ → ℚ)
    (xoffset yoffset zoffset mx b : ℚ) (fc width : ℕ) :
    ∀ (ys : List ℕ) (c : NoiseCache),
      (renderRowsOpt noise xoffset yoffset zoffset mx b fc width c ys).1.length
        = ys.length ∧
      ∀ row ∈ (renderRowsOpt noise xoffset yoffset zoffset mx b fc width c ys).1,
        ∃ toks : List String, row = String.join toks ∧ toks.length = width ∧
          ∀ t ∈ toks, ∃ n : ℕ, n ≤ 255 ∧
            t = render_token n (255 - n) (fc % 255) := by
  intro ys
  induction ys with
  | nil =>
    intro c
    exact ⟨rfl, by intro row hrow; simp [renderRowsOpt] at hrow⟩
  | cons y ys ih =>
    intro c
    constructor
    · simp only [renderRowsOpt, List.length_cons]
      rw [(ih _).1]
    · intro row hrow
      simp only [renderRowsOpt] at hrow
      rcases List.mem_cons.mp hrow with h | h
      · refine ⟨(renderRowOpt noise xoffset ((y : ℚ) / 5 + yoffset) zoffset mx b
            fc c (List.range width)).1, h, ?_, ?_⟩
        · rw [(renderRowOpt_tokens noise xoffset ((y : ℚ) / 5 + yoffset) zoffset
            mx b fc (List.range width) c).1, List.length_range]
        · exact (renderRowOpt_tokens noise xoffset ((y : ℚ) / 5 + yoffset)
            zoffset mx b fc (List.range width) c).2
      · exact (ih _).2 row h

/-- The color token of `test4.py` line 223,
`"\x1B[48;2;%d;%d;%dm " % (val, 255-val, framecount % 255)`: the same
template as the optimized files, but `%d` is applied to the two (still
fractional, possibly negative) float channels, so the first two
components are arbitrary integers rendered by Python's signed decimal
formatting (`Int.repr`). -/
def render_token4 (r g : ℤ) (b_color : ℕ) : String :=
  "\x1B[48;2;" ++ Int.repr r ++ ";" ++ Int.repr g ++ ";"
    ++ Nat.repr b_color ++ "m "

/-- Inner `for x in range(width)` loop of `test4.py` lines 203-223:
`xpos = x/10 + xoffset`, direct (uncached) noise call,
`val = noiseval * mx + b` clamped only above 255 and left fractional,
the `minfound`/`maxfound` trackers folded through (`mm`), and one token
appended per cell with `%d` truncating `val` and `255 - val`
separately. -/
def renderRow4 (noise : ℚ → ℚ → ℚ → ℚ) (xoffset ypos zpos mx b : ℚ)
    (framecount : ℕ) : ℚ × ℚ → List ℕ → List String × (ℚ × ℚ)
  | mm, [] => ([], mm)
  | mm, x :: xs =>
      let noiseval := noise ((x : ℚ) / 10 + xoffset) ypos zpos
      let val := if 255 < noiseval * mx + b then (255 : ℚ)
        else noiseval * mx + b
      let rest := renderRow4 noise xoffset ypos zpos mx b framecount
        (min mm.1 noiseval, max mm.2 noiseval) xs
      (render_token4 (pyTrunc val) (pyTrunc (255 - val)) (framecount % 255)
        :: rest.1, rest.2)

/-- Outer `for y in range(height)` loop of `test4.py` lines 200-228:
`ypos = y/5 + yoffset`, `zpos = z/5 + zoffset` shared by the whole
frame (`z` stays 0 in `test4.py`), one `linedata` string written per
row. -/
def renderRows4 (noise : ℚ → ℚ → ℚ → ℚ) (z xoffset yoffset zoffset mx b : ℚ)
    (framecount width : ℕ) : ℚ × ℚ → List ℕ → List String × (ℚ × ℚ)
  | mm, [] => ([], mm)
  | mm, y :: ys =>
      let row := renderRow4 noise xoffset ((y : ℚ) / 5 + yoffset)
        (z / 5 + zoffset) mx b framecount mm (List.range width)
      let rest := renderRows4 noise z xoffset yoffset zoffset mx b framecount
        width row.2 ys
      (String.join row.1 :: rest.1, rest.2)

/-- The frame rendering of the `test4.py` main loop (lines 200-228):
row strings plus the updated `(minfound, maxfound)` pair.  Unlike the
optimized renderers there is no cache, so the output is a pure
function of the state — re-rendering with identical state is
byte-for-byte identical by construction. -/
def renderFrame4 (noise : ℚ → ℚ → ℚ → ℚ)
    (z xoffset yoffset zoffset mx b : ℚ) (framecount width height : ℕ)
    (mm : ℚ × ℚ) : List String × (ℚ × ℚ) :=
  renderRows4 noise z xoffset yoffset zoffset mx b framecount width mm
    (List.range height)

/-- A noise source returning a value far outside the nominal `[-1, 1]`
range, exercising the unclamped lower tail of `test4.py`. -/
def negTwoNoise : ℚ → ℚ → ℚ → ℚ := fun _ _ _ => -2

/-- Every `test4.py` row render produces one token per column, each of
the template shape — but with unconstrained integer channels. -/
theorem renderRow4_struct (noise : ℚ → ℚ → ℚ → ℚ)
    (xoffset ypos zpos mx b : ℚ) (fc : ℕ) :
    ∀ (xs : List ℕ) (mm : ℚ × ℚ),
      (renderRow4 noise xoffset ypos zpos mx b fc mm xs).1.length = xs.length ∧
      ∀ t ∈ (renderRow4 noise xoffset ypos zpos mx b fc mm xs).1,
        ∃ (r g : ℤ) (bc : ℕ), t = render_token4 r g bc := by
  intro xs
  induction xs with
  | nil =>
    intro mm
    exact ⟨rfl, by intro t ht; simp [renderRow4] at ht⟩
  | cons x xs ih =>
    intro mm
    constructor
    · simp only [renderRow4, List.length_cons]
      rw [(ih _).1]
    · intro t ht
      simp only [renderRow4] at ht
      rcases List.mem_cons.mp ht with h | h
      · exact ⟨pyTrunc (if 255 < noise ((x : ℚ) / 10 + xoffset) ypos zpos * mx
            + b then (255 : ℚ)
            else noise ((x : ℚ) / 10 + xoffset) ypos zpos * mx + b),
          pyTrunc (255 - (if 255 < noise ((x : ℚ) / 10 + xoffset) ypos zpos
            * mx + b then (255 : ℚ)
            else noise ((x : ℚ) / 10 + xoffset) ypos zpos * mx + b)),
          fc % 255, h⟩
      · exact (ih _).2 t h

/-- Every `test4.py` frame render produces one row string per grid row,
each the join of exactly `width` template-shaped tokens. -/
theorem renderRows4_struct (noise : ℚ → ℚ → ℚ → ℚ)
    (z xoffset yoffset zoffset mx b : ℚ) (fc width : ℕ) :
    ∀ (ys : List ℕ) (mm : ℚ × ℚ),
      (renderRows4 noise z xoffset yoffset zoffset mx b fc width mm ys).1.length
        = ys.length ∧
      ∀ row ∈ (renderRows4 noise z xoffset yoffset zoffset mx b fc width mm
          ys).1,
        ∃ toks : List String, row = String.join toks ∧ toks.length = width ∧
          ∀ t ∈ toks, ∃ (r g : ℤ) (bc : ℕ), t = render_token4 r g bc := by
  intro ys
  induction ys with
  | nil =>
    intro mm
    exact ⟨rfl, by intro row hrow; simp [renderRows4] at hrow⟩
  | cons y ys ih =>
    intro mm
    constructor
    · simp only [renderRows4, List.length_cons]
      rw [(ih _).1]
    · intro row hrow
      simp only [renderRows4] at hrow
      rcases List.mem_cons.mp hrow with h | h
      · refine ⟨(renderRow4 noise xoffset ((y : ℚ) / 5 + yoffset)
            (z / 5 + zoffset) mx b fc mm (List.range width)).1, h, ?_, ?_⟩
        · rw [(renderRow4_struct noise xoffset ((y : ℚ) / 5 + yoffset)
            (z / 5 + zoffset) mx b fc (List.range width) mm).1,
            List.length_range]
        · exact (renderRow4_struct noise xoffset ((y : ℚ) / 5 + yoffset)
            (z / 5 + zoffset) mx b fc (List.range width) mm).2
      · exact (ih _).2 row h

set_option maxRecDepth 4000 in
/-- C8.  The claim cites both `render_frame_optimized` and the
`test4.py` row rendering.  For `render_frame_optimized` it holds in
full: with width 80, height 23, all offsets 0, slope = intercept =
127.5, frameCount = 0 and an empty cache, one call yields exactly 23
row strings, each the join of exactly 80 tokens of the exact byte
shape `ESC [48;2; R ; G ; B m SPACE` with `R = v`, `G = 255 - v`,
`B = 0 = frameCount % 255` for a clamped intensity `v ∈ [0, 255]`, the
decimal renderings of all components nonempty digit strings with no
leading zero; and rendering again with the identical arguments on top
of the now-populated cache reproduces the first output byte for byte
(and leaves the cache unchanged), for every deterministic noise
source.  `test4.py` produces the same 23 × 80 frame structure with the
same token template (and, having no cache, is trivially reproducible),
but its one-sided clamp (the latent defect of claim C1) breaks the
`R, G, B ∈ 0-255` part of the documented format: in the claim's own
scenario (row `y = 0`, so `ypos = zpos = 0`), a raw sample of `-2`
makes the very first token of the first row
`ESC [48;2;-127;382;0m SPACE`, with `R = -127 < 0` and
`G = 382 > 255`. -/
theorem end_to_end_frame (noise : ℚ → ℚ → ℚ → ℚ) :
    (render_frame_optimized noise 0 0 0 (255 / 2) (255 / 2) 0 80 23 []).1.length
      = 23 ∧
    (∀ row ∈ (render_frame_optimized noise 0 0 0 (255 / 2) (255 / 2) 0 80 23
        []).1,
      ∃ toks : List String, row = String.join toks ∧ toks.length = 80 ∧
        ∀ t ∈ toks, ∃ n : ℕ, n ≤ 255 ∧ 255 - n ≤ 255 ∧
          t = render_token n (255 - n) 0) ∧
    render_frame_optimized noise 0 0 0 (255 / 2) (255 / 2) 0 80 23
        (render_frame_optimized noise 0 0 0 (255 / 2) (255 / 2) 0 80 23 []).2
      = render_frame_optimized noise 0 0 0 (255 / 2) (255 / 2) 0 80 23 [] ∧
    (∀ n : ℕ, n < 256 →
      (Nat.repr n).data ≠ [] ∧ (∀ ch ∈ (Nat.repr n).data, ch.isDigit) ∧
      ((Nat.repr n).data.head? = some '0' → n = 0)) ∧
    (∀ (noise4 : ℚ → ℚ → ℚ → ℚ) (mm : ℚ × ℚ),
      (renderFrame4 noise4 0 0 0 0 (255 / 2) (255 / 2) 0 80 23 mm).1.length
        = 23) ∧
    (∀ (noise4 : ℚ → ℚ → ℚ → ℚ) (mm : ℚ × ℚ),
      ∀ row ∈ (renderFrame4 noise4 0 0 0 0 (255 / 2) (255 / 2) 0 80 23 mm).1,
        ∃ toks : List String, row = String.join toks ∧ toks.length = 80 ∧
          ∀ t ∈ toks, ∃ (r g : ℤ) (bc : ℕ), t = render_token4 r g bc) ∧
    ((renderRow4 negTwoNoise 0 0 0 (255 / 2) (255 / 2) 0 (0, 0)
        (List.range 80)).1.head? = some (render_token4 (-127) 382 0) ∧
     ¬ (0 ≤ (-127 : ℤ)) ∧ ¬ ((382 : ℤ) ≤ 255)) := by
  refine ⟨?_, ?_, ?_, ?_, ?_, ?_, ?_⟩
  · have h := (renderRowsOpt_rows noise 0 0 0 (255 / 2) (255 / 2) 0 80
      (List.range 23) []).1
    rw [List.length_range] at h
    exact h
  · intro row hrow
    obtain ⟨toks, h1, h2, h3⟩ := (renderRowsOpt_rows noise 0 0 0 (255 / 2)
      (255 / 2) 0 80 (List.range 23) []).2 row hrow
    refine ⟨toks, h1, h2, fun t ht => ?_⟩
    obtain ⟨n, hn, hteq⟩ := h3 t ht
    exact ⟨n, hn, Nat.sub_le 255 n, by simpa using hteq⟩
  · obtain ⟨rows, c2, hR⟩ : ∃ rows c2,
        render_frame_optimized noise 0 0 0 (255 / 2) (255 / 2) 0 80 23 []
          = (rows, c2) := ⟨_, _, rfl⟩
    have hrep := (renderRowsOpt_replay noise 0 0 0 (255 / 2) (255 / 2) 0 80
      (List.range 23) [] rows c2
      (by rw [List.length_range]; norm_num) hR).2.2 []
    rw [List.append_nil] at hrep
    rw [hR]
    exact hrep
  · with_unfolding_all decide
  · intro noise4 mm
    have h := (renderRows4_struct noise4 0 0 0 0 (255 / 2) (255 / 2) 0 80
      (List.range 23) mm).1
    rw [List.length_range] at h
    exact h
  · intro noise4 mm
    exact (renderRows4_struct noise4 0 0 0 0 (255 / 2) (255 / 2) 0 80
      (List.range 23) mm).2
  · refine ⟨?_, by decide, by decide⟩
    with_unfolding_all decide

/-- Witness for C8 at the constant noise source. -/
theorem end_to_end_frame_witness :
    (render_frame_optimized constNoise 0 0 0 (255 / 2) (255 / 2) 0 80 23
      []).1.length = 23 :=
  (end_to_end_frame constNoise).1

end NoisyTerminal
